import Mathlib

/-!
Verification of the `zuck` duration library (parser / formatter / normalization /
checked scalar conversion) against its natural-language specification.

The definitions below are a shallow embedding of the Rust source:
  * machine integers (`u64`, `u128`) are modelled as `Nat` with an explicit
    `% 2^64` / `% 2^128` wherever the source arithmetic can overflow
    (release-mode wrapping semantics, which the spec itself describes for the
    unchecked conversions);
  * fallible operations return `Except`/`Option` mirroring `Result`/`Option`;
  * strings are modelled as `List Char`, with character classes expressed via
    `Char.toNat` code points, matching `is_ascii_digit` / `is_ascii_alphabetic`.
-/

namespace Zuck

/-- Wrap-around modulus of the `u64` domain. -/
def U64 : Nat := 2 ^ 64

/-- Wrap-around modulus of the `u128` domain. -/
def U128 : Nat := 2 ^ 128

namespace second

/-- Rust `second::Second = u64`; seconds per second. -/
def SECOND : Nat := 1

/-- Seconds per minute (`SECOND * 60`). -/
def MINUTE : Nat := SECOND * 60

/-- Seconds per hour (`MINUTE * 60`). -/
def HOUR : Nat := MINUTE * 60

/-- Seconds per day (`HOUR * 24`). -/
def DAY : Nat := HOUR * 24

/-- Seconds per month, literal constant from `src/units.rs` (doc: `DAY * 30.44`). -/
def MONTH : Nat := 2630016

/-- Seconds per year, literal constant from `src/units.rs` (doc: `DAY * 365.25`). -/
def YEAR : Nat := 31557600

end second

namespace nanosecond

/-- Rust `nanosecond::Nanosecond = u128`; nanoseconds per nanosecond. -/
def NANOSECOND : Nat := 1

/-- Nanoseconds per microsecond (`NANOSECOND * 1000`). -/
def MICROSECOND : Nat := NANOSECOND * 1000

/-- Nanoseconds per millisecond (`MICROSECOND * 1000`). -/
def MILLISECOND : Nat := MICROSECOND * 1000

/-- Nanoseconds per second (`MILLISECOND * 1000`). -/
def SECOND : Nat := MILLISECOND * 1000

/-- Nanoseconds per minute (`SECOND * 60`). -/
def MINUTE : Nat := SECOND * 60

/-- Nanoseconds per hour (`MINUTE * 60`). -/
def HOUR : Nat := MINUTE * 60

/-- Nanoseconds per day (`HOUR * 24`). -/
def DAY : Nat := HOUR * 24

/-- Nanoseconds per month, literal constant from `src/units.rs` (doc: `DAY * 30.44`). -/
def MONTH : Nat := 2630016000000000000

/-- Nanoseconds per year, literal constant from `src/units.rs` (doc: `DAY * 365.25`). -/
def YEAR : Nat := 31556736000000000000

end nanosecond

/-- The nine-field structured duration (`src/duration.rs`), all fields `u64`. -/
structure Duration where
  nanoseconds : Nat
  microseconds : Nat
  milliseconds : Nat
  seconds : Nat
  minutes : Nat
  hours : Nat
  days : Nat
  months : Nat
  years : Nat
deriving DecidableEq, Repr

/-- Rust `Duration::default()`: all fields zero. -/
def Duration.default : Duration := ⟨0, 0, 0, 0, 0, 0, 0, 0, 0⟩

/-- All fields are in the `u64` range (the Rust type invariant). -/
def Duration.Wf (d : Duration) : Prop :=
  d.nanoseconds < U64 ∧ d.microseconds < U64 ∧ d.milliseconds < U64 ∧
  d.seconds < U64 ∧ d.minutes < U64 ∧ d.hours < U64 ∧
  d.days < U64 ∧ d.months < U64 ∧ d.years < U64

instance (d : Duration) : Decidable d.Wf := by
  unfold Duration.Wf; infer_instance

/-- One step of `Duration::normalize`: if `small` meets/exceeds `bound`, carry
`small / bound` into `big` (a wrapping `u64` addition) and keep `small % bound`.
Returns `(big, small)` after the step. -/
def carry (big small bound : Nat) : Nat × Nat :=
  if small ≥ bound then ((big + small / bound) % U64, small % bound) else (big, small)

/-- Rust `Duration::normalize` (`src/duration.rs` lines 36-78): one smallest-to-largest
carry pass over the eight unit boundaries. -/
def Duration.normalize (d : Duration) : Duration :=
  let c1 := carry d.microseconds d.nanoseconds 1000
  let c2 := carry d.milliseconds c1.1 1000
  let c3 := carry d.seconds c2.1 1000
  let c4 := carry d.minutes c3.1 60
  let c5 := carry d.hours c4.1 60
  let c6 := carry d.days c5.1 24
  let c7 := carry d.months c6.1 30
  let c8 := carry d.years c7.1 12
  ⟨c1.2, c2.2, c3.2, c4.2, c5.2, c6.2, c7.2, c8.2, c8.1⟩

/-- Rust `Duration::into_nanoseconds_unchecked` (`src/duration.rs` lines 81-91):
a chain of `u128` multiply-adds; each operation wraps modulo `2^128`
(release-mode semantics; the spec states the unchecked variants wrap silently). -/
def Duration.into_nanoseconds_unchecked (d : Duration) : Nat :=
  ((((((((d.nanoseconds
    + d.microseconds * nanosecond.MICROSECOND % U128) % U128
    + d.milliseconds * nanosecond.MILLISECOND % U128) % U128
    + d.seconds * nanosecond.SECOND % U128) % U128
    + d.minutes * nanosecond.MINUTE % U128) % U128
    + d.hours * nanosecond.HOUR % U128) % U128
    + d.days * nanosecond.DAY % U128) % U128
    + d.months * nanosecond.MONTH % U128) % U128
    + d.years * nanosecond.YEAR % U128) % U128

/-- Rust `Duration::into_seconds_unchecked` (`src/duration.rs` lines 108-118):
`u64` arithmetic, each operation wrapping modulo `2^64`. -/
def Duration.into_seconds_unchecked (d : Duration) : Nat :=
  ((((((((d.nanoseconds / 1000000000
    + d.microseconds / 1000000) % U64
    + d.milliseconds / 1000) % U64
    + d.seconds) % U64
    + d.minutes * second.MINUTE % U64) % U64
    + d.hours * second.HOUR % U64) % U64
    + d.days * second.DAY % U64) % U64
    + d.months * second.MONTH % U64) % U64
    + d.years * second.YEAR % U64) % U64

/-- Conversion error (`duration::error::Error`). -/
inductive ConvError where
  | IntOverflow
deriving DecidableEq, Repr

/-- Rust `CheckedU64/CheckedU128::add_mul_result` (`src/util.rs`): compute
`s + lhs * rhs`, failing (`none`) if the product or the sum leaves `[0, w)`. -/
def addMulChecked (w : Nat) (s : Option Nat) (lhs rhs : Nat) : Option Nat :=
  match s with
  | none => none
  | some sv =>
    if lhs * rhs < w then
      if sv + lhs * rhs < w then some (sv + lhs * rhs) else none
    else none

deriving instance DecidableEq for Except

/-- Rust `Option::ok_or(IntOverflow)`. -/
def okOr (o : Option Nat) : Except ConvError Nat :=
  match o with
  | some v => Except.ok v
  | none => Except.error ConvError.IntOverflow

/-- Rust `Duration::into_nanoseconds` (`src/duration.rs` lines 94-105): checked
multiply-add chain over the `u128` domain starting from the nanoseconds field. -/
def Duration.into_nanoseconds (d : Duration) : Except ConvError Nat :=
  okOr (addMulChecked U128 (addMulChecked U128 (addMulChecked U128 (addMulChecked U128
    (addMulChecked U128 (addMulChecked U128 (addMulChecked U128 (addMulChecked U128
      (some d.nanoseconds)
      d.microseconds nanosecond.MICROSECOND)
      d.milliseconds nanosecond.MILLISECOND)
      d.seconds nanosecond.SECOND)
      d.minutes nanosecond.MINUTE)
      d.hours nanosecond.HOUR)
      d.days nanosecond.DAY)
      d.months nanosecond.MONTH)
      d.years nanosecond.YEAR)

/-- The initial accumulator of `Duration::into_seconds`: the sub-second floors
and the seconds field summed with plain (wrapping) `u64` additions, before the
checked chain starts. -/
def Duration.secInit (d : Duration) : Nat :=
  (d.nanoseconds / 1000000000 + d.microseconds / 1000000
    + d.milliseconds / 1000 + d.seconds) % U64

/-- Rust `Duration::into_seconds` (`src/duration.rs` lines 121-134): the sub-second
floors and the seconds field are summed with plain (wrapping) `u64` additions,
and only then threaded through the checked multiply-add chain. -/
def Duration.into_seconds (d : Duration) : Except ConvError Nat :=
  okOr (addMulChecked U64 (addMulChecked U64 (addMulChecked U64 (addMulChecked U64
    (addMulChecked U64
      (some d.secInit)
      d.minutes second.MINUTE)
      d.hours second.HOUR)
      d.days second.DAY)
      d.months second.MONTH)
      d.years second.YEAR)

/-- Rust `Duration::from_seconds` (`src/duration.rs` lines 136-164): greedy
largest-constant-first decomposition of a total-seconds value. -/
def Duration.from_seconds (s : Nat) : Duration :=
  let years := s / second.YEAR
  let s1 := s % second.YEAR
  let months := s1 / second.MONTH
  let s2 := s1 % second.MONTH
  let days := s2 / second.DAY
  let s3 := s2 % second.DAY
  let hours := s3 / second.HOUR
  let s4 := s3 % second.HOUR
  let minutes := s4 / second.MINUTE
  let s5 := s4 % second.MINUTE
  ⟨0, 0, 0, s5, minutes, hours, days, months, years⟩

/-- Rust `Duration::from_nanoseconds` (`src/duration.rs` lines 166-207): greedy
largest-constant-first decomposition of a total-nanoseconds value; each quotient
is narrowed `as u64` (modelled by `% 2^64`). -/
def Duration.from_nanoseconds (n : Nat) : Duration :=
  let years := n / nanosecond.YEAR
  let n1 := n % nanosecond.YEAR
  let months := n1 / nanosecond.MONTH
  let n2 := n1 % nanosecond.MONTH
  let days := n2 / nanosecond.DAY
  let n3 := n2 % nanosecond.DAY
  let hours := n3 / nanosecond.HOUR
  let n4 := n3 % nanosecond.HOUR
  let minutes := n4 / nanosecond.MINUTE
  let n5 := n4 % nanosecond.MINUTE
  let seconds := n5 / nanosecond.SECOND
  let n6 := n5 % nanosecond.SECOND
  let milliseconds := n6 / nanosecond.MILLISECOND
  let n7 := n6 % nanosecond.MILLISECOND
  let microseconds := n7 / nanosecond.MICROSECOND
  let n8 := n7 % nanosecond.MICROSECOND
  ⟨n8 % U64, microseconds % U64, milliseconds % U64, seconds % U64,
   minutes % U64, hours % U64, days % U64, months % U64, years % U64⟩

/-- Exact mathematical total of nanoseconds represented by a duration
(the sum `into_nanoseconds` is specified to compute, without wrap-around). -/
def Duration.nsTotal (d : Duration) : Nat :=
  d.nanoseconds
    + d.microseconds * nanosecond.MICROSECOND
    + d.milliseconds * nanosecond.MILLISECOND
    + d.seconds * nanosecond.SECOND
    + d.minutes * nanosecond.MINUTE
    + d.hours * nanosecond.HOUR
    + d.days * nanosecond.DAY
    + d.months * nanosecond.MONTH
    + d.years * nanosecond.YEAR

/-- Exact mathematical total of seconds represented by a duration
(the sum `into_seconds` is specified to compute, without wrap-around). -/
def Duration.sTotal (d : Duration) : Nat :=
  d.nanoseconds / 1000000000
    + d.microseconds / 1000000
    + d.milliseconds / 1000
    + d.seconds
    + d.minutes * second.MINUTE
    + d.hours * second.HOUR
    + d.days * second.DAY
    + d.months * second.MONTH
    + d.years * second.YEAR

lemma sMINUTE : second.MINUTE = 60 := rfl

lemma sHOUR : second.HOUR = 3600 := rfl

lemma sDAY : second.DAY = 86400 := rfl

lemma sMONTH : second.MONTH = 2630016 := rfl

lemma sYEAR : second.YEAR = 31557600 := rfl

lemma nMICROSECOND : nanosecond.MICROSECOND = 1000 := rfl

lemma nMILLISECOND : nanosecond.MILLISECOND = 1000000 := rfl

lemma nSECOND : nanosecond.SECOND = 1000000000 := rfl

lemma nMINUTE : nanosecond.MINUTE = 60000000000 := rfl

lemma nHOUR : nanosecond.HOUR = 3600000000000 := rfl

lemma nDAY : nanosecond.DAY = 86400000000000 := rfl

lemma nMONTH : nanosecond.MONTH = 2630016000000000000 := rfl

lemma nYEAR : nanosecond.YEAR = 31556736000000000000 := rfl

lemma U64_eq : U64 = 18446744073709551616 := rfl

lemma U128_eq : U128 = 340282366920938463463374607431768211456 := rfl

lemma carry_snd_lt (big small bound : Nat) (h : 0 < bound) :
    (carry big small bound).2 < bound := by
  unfold carry
  split
  · exact Nat.mod_lt _ h
  · omega

/-- Claim C7: for every input duration, a single smallest-to-largest carry pass
of `normalize` establishes the bounded invariant: nanoseconds, microseconds and
milliseconds below 1000, seconds and minutes below 60, hours below 24, days
below 30, months below 12 (years unbounded). -/
theorem c7_normalize_invariant (d : Duration) :
    (d.normalize).nanoseconds < 1000 ∧ (d.normalize).microseconds < 1000 ∧
    (d.normalize).milliseconds < 1000 ∧ (d.normalize).seconds < 60 ∧
    (d.normalize).minutes < 60 ∧ (d.normalize).hours < 24 ∧
    (d.normalize).days < 30 ∧ (d.normalize).months < 12 := by
  have h1000 : (0 : Nat) < 1000 := by norm_num
  have h60 : (0 : Nat) < 60 := by norm_num
  have h24 : (0 : Nat) < 24 := by norm_num
  have h30 : (0 : Nat) < 30 := by norm_num
  have h12 : (0 : Nat) < 12 := by norm_num
  simp only [Duration.normalize]
  exact ⟨carry_snd_lt _ _ _ h1000, carry_snd_lt _ _ _ h1000, carry_snd_lt _ _ _ h1000,
    carry_snd_lt _ _ _ h60, carry_snd_lt _ _ _ h60, carry_snd_lt _ _ _ h24,
    carry_snd_lt _ _ _ h30, carry_snd_lt _ _ _ h12⟩

/-- Claim C1 (counterexample): `from_seconds 2630015` (one second short of the
month constant) has `days = 30`, violating the claimed `days < 30` bound. -/
theorem c1_counterexample :
    ¬ ((Duration.from_seconds 2630015).days < 30) := by
  decide

/-- Claim C1 (amended): decomposition yields every field below its natural bound
except `days`: `from_seconds` gives `days ≤ 30` (30 is reached) and
`from_nanoseconds` gives `days ≤ 30439`; sub-second fields of `from_seconds`
are zero and all other bounds hold as claimed. -/
theorem c1_decomposition_bounds (s n : Nat) :
    ((Duration.from_seconds s).nanoseconds = 0 ∧
     (Duration.from_seconds s).microseconds = 0 ∧
     (Duration.from_seconds s).milliseconds = 0 ∧
     (Duration.from_seconds s).seconds < 60 ∧
     (Duration.from_seconds s).minutes < 60 ∧
     (Duration.from_seconds s).hours < 24 ∧
     (Duration.from_seconds s).days ≤ 30 ∧
     (Duration.from_seconds s).months < 12) ∧
    ((Duration.from_nanoseconds n).nanoseconds < 1000 ∧
     (Duration.from_nanoseconds n).microseconds < 1000 ∧
     (Duration.from_nanoseconds n).milliseconds < 1000 ∧
     (Duration.from_nanoseconds n).seconds < 60 ∧
     (Duration.from_nanoseconds n).minutes < 60 ∧
     (Duration.from_nanoseconds n).hours < 24 ∧
     (Duration.from_nanoseconds n).days ≤ 30439 ∧
     (Duration.from_nanoseconds n).months < 12) := by
  simp only [Duration.from_seconds, Duration.from_nanoseconds,
    sYEAR, sMONTH, sDAY, sHOUR, sMINUTE,
    nYEAR, nMONTH, nDAY, nHOUR, nMINUTE, nSECOND, nMILLISECOND, nMICROSECOND, U64_eq,
    true_and, and_true]
  omega

/-- Claim C5: the second-based month/year constants equal `30.44` and `365.25`
days exactly, but the nanosecond-based constants do not encode those
approximations: `nanosecond::MONTH` is exactly 1000 times `30.44` days of
nanoseconds, and `nanosecond::YEAR` is exactly 1000 times `365.24` (not even
`365.25`) days of nanoseconds — three decimal orders of magnitude off the
products the claim states. -/
theorem c5_constants :
    second.MONTH * 100 = 3044 * second.DAY ∧
    second.YEAR * 100 = 36525 * second.DAY ∧
    nanosecond.MONTH * 100 = 1000 * (3044 * nanosecond.DAY) ∧
    nanosecond.YEAR * 100 = 1000 * (36524 * nanosecond.DAY) ∧
    ¬ (nanosecond.MONTH * 100 = 3044 * nanosecond.DAY) ∧
    ¬ (nanosecond.YEAR * 100 = 36525 * nanosecond.DAY) := by
  decide

/-- Claim C6: with all other fields zero and `years = u64::MAX`, the product
`years * nanosecond::YEAR` exceeds `2^128`, so `into_nanoseconds_unchecked`
wraps modulo `2^128` and does not return the exact mathematical total. -/
theorem c6_unchecked_overflow :
    Duration.into_nanoseconds_unchecked ⟨0, 0, 0, 0, 0, 0, 0, 0, 2 ^ 64 - 1⟩
      = ((2 ^ 64 - 1) * nanosecond.YEAR) % 2 ^ 128 ∧
    2 ^ 128 ≤ (2 ^ 64 - 1) * nanosecond.YEAR ∧
    ¬ (Duration.into_nanoseconds_unchecked ⟨0, 0, 0, 0, 0, 0, 0, 0, 2 ^ 64 - 1⟩
      = (2 ^ 64 - 1) * nanosecond.YEAR) := by
  refine ⟨by decide, by decide, by decide⟩

lemma into_seconds_congr (d e : Duration) (h0 : d.secInit = e.secInit)
    (h1 : d.minutes = e.minutes) (h2 : d.hours = e.hours) (h3 : d.days = e.days)
    (h4 : d.months = e.months) (h5 : d.years = e.years) :
    d.into_seconds = e.into_seconds := by
  unfold Duration.into_seconds
  rw [h0, h1, h2, h3, h4, h5]

/-- Claim C10: both seconds conversions truncate each sub-second field
independently: the sub-second fields contribute exactly
`⌊ns/10^9⌋ + ⌊µs/10^6⌋ + ⌊ms/10^3⌋` whole seconds, so replacing
`nanoseconds = 999999999`, `microseconds = 999999`, `milliseconds = 999`
by zeros changes neither conversion (those fields jointly exceed two seconds
but contribute 0). -/
theorem c10_subsecond_truncation (d : Duration) :
    (d.into_seconds_unchecked =
      (d.nanoseconds / 1000000000 + d.microseconds / 1000000 + d.milliseconds / 1000
        + Duration.into_seconds_unchecked
            ⟨0, 0, 0, d.seconds, d.minutes, d.hours, d.days, d.months, d.years⟩) % U64) ∧
    (d.into_seconds =
      Duration.into_seconds
        ⟨0, 0, 0, (d.seconds + (d.nanoseconds / 1000000000 + d.microseconds / 1000000
            + d.milliseconds / 1000)) % U64,
          d.minutes, d.hours, d.days, d.months, d.years⟩) ∧
    (Duration.into_seconds_unchecked
        ⟨999999999, 999999, 999, d.seconds, d.minutes, d.hours, d.days, d.months, d.years⟩ =
      Duration.into_seconds_unchecked
        ⟨0, 0, 0, d.seconds, d.minutes, d.hours, d.days, d.months, d.years⟩) ∧
    (Duration.into_seconds
        ⟨999999999, 999999, 999, d.seconds, d.minutes, d.hours, d.days, d.months, d.years⟩ =
      Duration.into_seconds
        ⟨0, 0, 0, d.seconds, d.minutes, d.hours, d.days, d.months, d.years⟩) := by
  refine ⟨?_, ?_, ?_, ?_⟩
  · simp only [Duration.into_seconds_unchecked, sMINUTE, sHOUR, sDAY, sMONTH, sYEAR, U64_eq]
    omega
  · apply into_seconds_congr
    · simp only [Duration.secInit, U64_eq]
      omega
    all_goals rfl
  · simp only [Duration.into_seconds_unchecked, sMINUTE, sHOUR, sDAY, sMONTH, sYEAR, U64_eq]
  · apply into_seconds_congr
    · simp only [Duration.secInit, U64_eq]
    all_goals rfl

/-- A checked multiply-add chain expressed as a fold, for reasoning about the
literal chains in `into_nanoseconds` / `into_seconds`. -/
def chain (w : Nat) (s : Option Nat) (ps : List (Nat × Nat)) : Option Nat :=
  ps.foldl (fun a p => addMulChecked w a p.1 p.2) s

/-- Sum of the products contributed by a chain's steps. -/
def sumProds (ps : List (Nat × Nat)) : Nat :=
  (ps.map fun p => p.1 * p.2).sum

lemma chain_none (w : Nat) (ps : List (Nat × Nat)) : chain w none ps = none := by
  induction ps with
  | nil => rfl
  | cons p tl ih => simpa [chain, addMulChecked] using ih

lemma chain_ok (w : Nat) (ps : List (Nat × Nat)) :
    ∀ init, init + sumProds ps < w → chain w (some init) ps = some (init + sumProds ps) := by
  induction ps with
  | nil => intro init h; simp [chain, sumProds]
  | cons p tl ih =>
    intro init h
    have hsum : sumProds (p :: tl) = p.1 * p.2 + sumProds tl := by
      simp [sumProds]
    have hp : p.1 * p.2 < w := by omega
    have hs : init + p.1 * p.2 < w := by omega
    have hstep : addMulChecked w (some init) p.1 p.2 = some (init + p.1 * p.2) := by
      simp [addMulChecked, hp, hs]
    have htl : (init + p.1 * p.2) + sumProds tl < w := by omega
    calc chain w (some init) (p :: tl)
        = chain w (addMulChecked w (some init) p.1 p.2) tl := rfl
      _ = some ((init + p.1 * p.2) + sumProds tl) := by rw [hstep]; exact ih _ htl
      _ = some (init + sumProds (p :: tl)) := by rw [hsum]; ring_nf

lemma chain_overflow (w : Nat) (ps : List (Nat × Nat)) :
    ∀ init, init < w → w ≤ init + sumProds ps → chain w (some init) ps = none := by
  induction ps with
  | nil =>
    intro init hinit h
    exfalso
    have : sumProds ([] : List (Nat × Nat)) = 0 := rfl
    omega
  | cons p tl ih =>
    intro init hinit h
    have hsum : sumProds (p :: tl) = p.1 * p.2 + sumProds tl := by
      simp [sumProds]
    by_cases hp : p.1 * p.2 < w ∧ init + p.1 * p.2 < w
    · have hstep : addMulChecked w (some init) p.1 p.2 = some (init + p.1 * p.2) := by
        simp [addMulChecked, hp.1, hp.2]
      calc chain w (some init) (p :: tl)
          = chain w (addMulChecked w (some init) p.1 p.2) tl := rfl
        _ = none := by rw [hstep]; exact ih _ hp.2 (by omega)
    · have hstep : addMulChecked w (some init) p.1 p.2 = none := by
        rcases Decidable.not_and_iff_or_not.mp hp with hnp | hns
        · simp [addMulChecked, hnp]
        · simp [addMulChecked]
          intro h1
          omega
      calc chain w (some init) (p :: tl)
          = chain w (addMulChecked w (some init) p.1 p.2) tl := rfl
        _ = none := by rw [hstep]; exact chain_none w tl

lemma into_nanoseconds_eq_chain (d : Duration) :
    d.into_nanoseconds = okOr (chain U128 (some d.nanoseconds)
      [(d.microseconds, nanosecond.MICROSECOND), (d.milliseconds, nanosecond.MILLISECOND),
       (d.seconds, nanosecond.SECOND), (d.minutes, nanosecond.MINUTE),
       (d.hours, nanosecond.HOUR), (d.days, nanosecond.DAY),
       (d.months, nanosecond.MONTH), (d.years, nanosecond.YEAR)]) := rfl

lemma into_seconds_eq_chain (d : Duration) :
    d.into_seconds = okOr (chain U64 (some d.secInit)
      [(d.minutes, second.MINUTE), (d.hours, second.HOUR), (d.days, second.DAY),
       (d.months, second.MONTH), (d.years, second.YEAR)]) := rfl

/-- Claim C2 (counterexample): with `milliseconds = seconds = u64::MAX`, the
exact seconds total exceeds `u64`, yet `into_seconds` returns `Ok` of a wrapped
value instead of `Err(IntOverflow)`: the initial sub-second sum is computed with
plain wrapping additions before the checked chain starts. -/
theorem c2_counterexample :
    Duration.into_seconds
        ⟨0, 0, 18446744073709551615, 18446744073709551615, 0, 0, 0, 0, 0⟩
      = Except.ok 18446744073709550 ∧
    U64 ≤ Duration.sTotal
        ⟨0, 0, 18446744073709551615, 18446744073709551615, 0, 0, 0, 0, 0⟩ := by
  exact ⟨by decide, by decide⟩

/-- Claim C2 (amended): for every well-formed duration, `into_nanoseconds`
returns `Ok` of the exact nanosecond sum when it fits `u128` and
`Err(IntOverflow)` otherwise; `into_seconds` behaves the same way for `u64`
provided its initial unchecked sub-second sum
`⌊ns/10^9⌋ + ⌊µs/10^6⌋ + ⌊ms/10^3⌋ + seconds` does not itself overflow `u64`
(without that precondition the initial sum wraps silently). -/
theorem c2_checked_conversions (d : Duration) (hwf : d.Wf) :
    (d.into_nanoseconds =
      if d.nsTotal < U128 then Except.ok d.nsTotal else Except.error ConvError.IntOverflow) ∧
    (d.nanoseconds / 1000000000 + d.microseconds / 1000000
        + d.milliseconds / 1000 + d.seconds < U64 →
      d.into_seconds =
        if d.sTotal < U64 then Except.ok d.sTotal else Except.error ConvError.IntOverflow) := by
  obtain ⟨h1, h2, h3, h4, h5, h6, h7, h8, h9⟩ := hwf
  constructor
  · rw [into_nanoseconds_eq_chain]
    have hsum : d.nsTotal = d.nanoseconds + sumProds
        [(d.microseconds, nanosecond.MICROSECOND), (d.milliseconds, nanosecond.MILLISECOND),
         (d.seconds, nanosecond.SECOND), (d.minutes, nanosecond.MINUTE),
         (d.hours, nanosecond.HOUR), (d.days, nanosecond.DAY),
         (d.months, nanosecond.MONTH), (d.years, nanosecond.YEAR)] := by
      simp [Duration.nsTotal, sumProds]
      ring
    by_cases h : d.nsTotal < U128
    · rw [chain_ok _ _ _ (by omega), if_pos h, ← hsum]
      rfl
    · have hinit : d.nanoseconds < U128 := by
        have : U64 < U128 := by rw [U64_eq, U128_eq]; norm_num
        omega
      rw [chain_overflow _ _ _ hinit (by omega), if_neg h]
      rfl
  · intro hpre
    rw [into_seconds_eq_chain]
    have hinit : d.secInit = d.nanoseconds / 1000000000 + d.microseconds / 1000000
        + d.milliseconds / 1000 + d.seconds := by
      simp only [Duration.secInit]
      exact Nat.mod_eq_of_lt hpre
    have hsum : d.sTotal = d.secInit + sumProds
        [(d.minutes, second.MINUTE), (d.hours, second.HOUR), (d.days, second.DAY),
         (d.months, second.MONTH), (d.years, second.YEAR)] := by
      rw [hinit]
      simp [Duration.sTotal, sumProds]
      ring
    by_cases h : d.sTotal < U64
    · rw [chain_ok _ _ _ (by omega), if_pos h, ← hsum]
      rfl
    · have hinitlt : d.secInit < U64 := by
        rw [hinit]
        exact hpre
      rw [chain_overflow _ _ _ hinitlt (by omega), if_neg h]
      rfl

/-- Claim C2 (witness): the amended theorem applied at a concrete duration. -/
theorem c2_checked_conversions_witness :
    Duration.Wf ⟨1, 2, 3, 4, 5, 6, 7, 8, 9⟩ ∧
    ((Duration.into_nanoseconds ⟨1, 2, 3, 4, 5, 6, 7, 8, 9⟩ =
      if Duration.nsTotal ⟨1, 2, 3, 4, 5, 6, 7, 8, 9⟩ < U128
      then Except.ok (Duration.nsTotal ⟨1, 2, 3, 4, 5, 6, 7, 8, 9⟩)
      else Except.error ConvError.IntOverflow) ∧
     (1 / 1000000000 + 2 / 1000000 + 3 / 1000 + 4 < U64 →
      Duration.into_seconds ⟨1, 2, 3, 4, 5, 6, 7, 8, 9⟩ =
        if Duration.sTotal ⟨1, 2, 3, 4, 5, 6, 7, 8, 9⟩ < U64
        then Except.ok (Duration.sTotal ⟨1, 2, 3, 4, 5, 6, 7, 8, 9⟩)
        else Except.error ConvError.IntOverflow)) :=
  ⟨by decide, c2_checked_conversions ⟨1, 2, 3, 4, 5, 6, 7, 8, 9⟩ (by decide)⟩

/-- Rust `util::should_apply_plural`: plural whenever the value is not exactly 1. -/
def should_apply_plural (input : Nat) : Bool := input != 1

/-- Rust `formatter::FormatterOptions`. -/
structure FormatterOptions where
  show_nanoseconds : Bool
  show_microseconds : Bool
  show_milliseconds : Bool
  show_seconds : Bool
  show_minutes : Bool
  show_hours : Bool
  show_days : Bool
  show_months : Bool
  show_years : Bool
  long_unit_names : Bool
  show_value_if_zero : Bool
deriving DecidableEq, Repr

/-- Rust `FormatterOptions::default()`: all visibility flags true, long names and
zero-visibility false. -/
def FormatterOptions.default : FormatterOptions :=
  ⟨true, true, true, true, true, true, true, true, true, false, false⟩

/-- The formatter's `add_if_enabled!` macro body: append the decimal value and
its unit suffix when the field is shown and (nonzero or zeros are shown). -/
def addIfEnabled (opts : FormatterOptions) (acc : List Char) (cond : Bool) (v : Nat)
    (short longSing longPlur : List Char) : List Char :=
  if cond && !(!opts.show_value_if_zero && v == 0) then
    acc ++ Nat.toDigits 10 v ++
      (if opts.long_unit_names then
        (if should_apply_plural v then longPlur else longSing)
      else short)
  else acc

/-- Rust `Duration::format` (`src/formatter.rs` lines 153-204): emit the nine fields
largest to smallest, trim one trailing space, and fall back to `"0ns"` /
`"0 nanoseconds"` when nothing was emitted. -/
def Duration.format (d : Duration) (opts : FormatterOptions) : List Char :=
  let s := addIfEnabled opts [] opts.show_years d.years "y".data " year ".data " years ".data
  let s := addIfEnabled opts s opts.show_months d.months "mo".data " month ".data " months ".data
  let s := addIfEnabled opts s opts.show_days d.days "d".data " day ".data " days ".data
  let s := addIfEnabled opts s opts.show_hours d.hours "h".data " hour ".data " hours ".data
  let s := addIfEnabled opts s opts.show_minutes d.minutes "m".data " minute ".data " minutes ".data
  let s := addIfEnabled opts s opts.show_seconds d.seconds "s".data " second ".data " seconds ".data
  let s := addIfEnabled opts s opts.show_milliseconds d.milliseconds "ms".data
    " millisecond ".data " milliseconds ".data
  let s := addIfEnabled opts s opts.show_microseconds d.microseconds "μs".data
    " microsecond ".data " microseconds ".data
  let s := addIfEnabled opts s opts.show_nanoseconds d.nanoseconds "ns".data
    " nanosecond ".data " nanoseconds ".data
  let s := if s.getLast? = some ' ' then s.dropLast else s
  if s.isEmpty then (if opts.long_unit_names then "0 nanoseconds".data else "0ns".data) else s

lemma addIfEnabled_skip {opts : FormatterOptions} {acc : List Char} {cond : Bool} {v : Nat}
    {short longSing longPlur : List Char}
    (h : cond = false ∨ (v = 0 ∧ opts.show_value_if_zero = false)) :
    addIfEnabled opts acc cond v short longSing longPlur = acc := by
  unfold addIfEnabled
  rcases h with h | ⟨hv, hz⟩
  · simp [h]
  · simp [hv, hz]

/-- Claim C9: whenever every field is either suppressed by its `show` flag or is
zero while `show_value_if_zero` is false, `format` returns exactly `"0ns"`
(or `"0 nanoseconds"` with `long_unit_names`), never the empty string. -/
theorem c9_empty_format (d : Duration) (opts : FormatterOptions)
    (hy : opts.show_years = false ∨ (d.years = 0 ∧ opts.show_value_if_zero = false))
    (hmo : opts.show_months = false ∨ (d.months = 0 ∧ opts.show_value_if_zero = false))
    (hd : opts.show_days = false ∨ (d.days = 0 ∧ opts.show_value_if_zero = false))
    (hh : opts.show_hours = false ∨ (d.hours = 0 ∧ opts.show_value_if_zero = false))
    (hmi : opts.show_minutes = false ∨ (d.minutes = 0 ∧ opts.show_value_if_zero = false))
    (hs : opts.show_seconds = false ∨ (d.seconds = 0 ∧ opts.show_value_if_zero = false))
    (hms : opts.show_milliseconds = false ∨ (d.milliseconds = 0 ∧ opts.show_value_if_zero = false))
    (hus : opts.show_microseconds = false ∨ (d.microseconds = 0 ∧ opts.show_value_if_zero = false))
    (hns : opts.show_nanoseconds = false ∨ (d.nanoseconds = 0 ∧ opts.show_value_if_zero = false)) :
    d.format opts = if opts.long_unit_names then "0 nanoseconds".data else "0ns".data := by
  unfold Duration.format
  simp only [addIfEnabled_skip hy, addIfEnabled_skip hmo, addIfEnabled_skip hd,
    addIfEnabled_skip hh, addIfEnabled_skip hmi, addIfEnabled_skip hs, addIfEnabled_skip hms,
    addIfEnabled_skip hus, addIfEnabled_skip hns]
  simp

/-- Claim C9 (witness): the theorem applied to the all-zero duration under the
default options, yielding `"0ns"`. -/
theorem c9_empty_format_witness :
    (FormatterOptions.default.show_years = false ∨
      (Duration.default.years = 0 ∧ FormatterOptions.default.show_value_if_zero = false)) ∧
    Duration.format Duration.default FormatterOptions.default =
      (if FormatterOptions.default.long_unit_names then "0 nanoseconds".data else "0ns".data) :=
  ⟨by decide,
   c9_empty_format Duration.default FormatterOptions.default
     (by decide) (by decide) (by decide) (by decide) (by decide)
     (by decide) (by decide) (by decide) (by decide)⟩

/-- Rust `char::is_ascii_digit`: code points 48-57. -/
def isDigitC (c : Char) : Bool := 48 ≤ c.toNat && c.toNat ≤ 57

/-- The parser's unit-character test: `is_ascii_alphabetic` (65-90, 97-122) or
the micro sign `'μ'` (code point 956). -/
def isUnitChar (c : Char) : Bool :=
  (65 ≤ c.toNat && c.toNat ≤ 90) || (97 ≤ c.toNat && c.toNat ≤ 122) || c.toNat == 956

/-- Decimal value of a scanned digit run (`u64::from_str` before the range
check). -/
def digitsVal (l : List Char) : Nat :=
  l.foldl (fun a c => 10 * a + (c.toNat - 48)) 0

/-- Rust `units::TimeUnit`. -/
inductive TimeUnit where
  | Nanosecond
  | Microsecond
  | Millisecond
  | Second
  | Minute
  | Hour
  | Day
  | Week
  | Month
  | Year
deriving DecidableEq, Repr

/-- Rust `TimeUnit::from_str` (`src/units.rs` lines 96-118). The source file stores
the microsecond micro-sign alias as the double-encoded byte sequence
`0xC3 0x8E 0xC2 0xBC 0x73` (the two characters U+00CE, U+00BC followed by
`s`), not as `"μs"` (U+03BC, `s`); it is embedded here exactly as written. -/
def TimeUnit.fromStr (s : List Char) : Option TimeUnit :=
  if s = "ns".data ∨ s = "nsec".data ∨ s = "nsecs".data ∨ s = "nanosec".data ∨
     s = "nanosecs".data ∨ s = "nanosecond".data ∨ s = "nanoseconds".data then
    some TimeUnit.Nanosecond
  else if s = [Char.ofNat 0xCE, Char.ofNat 0xBC, 's'] ∨ s = "us".data ∨ s = "usec".data ∨
     s = "usecs".data ∨ s = "microsec".data ∨ s = "microsecs".data ∨
     s = "microsecond".data ∨ s = "microseconds".data then
    some TimeUnit.Microsecond
  else if s = "ms".data ∨ s = "msec".data ∨ s = "msecs".data ∨ s = "millisecond".data ∨
     s = "milliseconds".data then
    some TimeUnit.Millisecond
  else if s = "s".data ∨ s = "sec".data ∨ s = "secs".data ∨ s = "second".data ∨
     s = "seconds".data then
    some TimeUnit.Second
  else if s = "m".data ∨ s = "min".data ∨ s = "mins".data ∨ s = "minute".data ∨
     s = "minutes".data then
    some TimeUnit.Minute
  else if s = "h".data ∨ s = "hr".data ∨ s = "hrs".data ∨ s = "hour".data ∨
     s = "hours".data then
    some TimeUnit.Hour
  else if s = "d".data ∨ s = "day".data ∨ s = "days".data then
    some TimeUnit.Day
  else if s = "w".data ∨ s = "wk".data ∨ s = "wks".data ∨ s = "week".data ∨
     s = "weeks".data then
    some TimeUnit.Week
  else if s = "mo".data ∨ s = "month".data ∨ s = "months".data then
    some TimeUnit.Month
  else if s = "y".data ∨ s = "yr".data ∨ s = "yrs".data ∨ s = "year".data ∨
     s = "years".data then
    some TimeUnit.Year
  else none

/-- Rust `formatter::error::Error`; the `ValueParseError` payload (a host
`ParseIntError`) is dropped. `endIdx` models the Rust field `end`. -/
inductive FmtError where
  | NumberExpected (value : Char) (index : Nat)
  | UnknownUnit (start endIdx : Nat) (input_unit : List Char) (value : Nat)
  | TimeUnitRepeated (start endIdx : Nat) (unit : TimeUnit) (value : Nat)
  | InputIsTooLong
  | ValueWithoutUnit
  | ValueParseError
  | EmptyInput
deriving DecidableEq, Repr

/-- The `supply_matcher!` dispatch (`src/formatter.rs` lines 78-143): assign the
value into the matched unit's field, with duplicate detection. The eight plain
units reject a second supply iff the field is already nonzero; Week folds into
days at `×7` and is tracked by the `was_week_repeated` flag; Day rejects only
when days is nonzero and no Week was supplied. -/
def supply (w : Bool) (acc : Duration) (tu : TimeUnit) (value uStart uLast : Nat) :
    Except FmtError (Duration × Bool) :=
  match tu with
  | TimeUnit.Nanosecond =>
    if acc.nanoseconds ≠ 0 then
      Except.error (FmtError.TimeUnitRepeated uStart uLast TimeUnit.Nanosecond value)
    else Except.ok ({acc with nanoseconds := value}, w)
  | TimeUnit.Microsecond =>
    if acc.microseconds ≠ 0 then
      Except.error (FmtError.TimeUnitRepeated uStart uLast TimeUnit.Microsecond value)
    else Except.ok ({acc with microseconds := value}, w)
  | TimeUnit.Millisecond =>
    if acc.milliseconds ≠ 0 then
      Except.error (FmtError.TimeUnitRepeated uStart uLast TimeUnit.Millisecond value)
    else Except.ok ({acc with milliseconds := value}, w)
  | TimeUnit.Second =>
    if acc.seconds ≠ 0 then
      Except.error (FmtError.TimeUnitRepeated uStart uLast TimeUnit.Second value)
    else Except.ok ({acc with seconds := value}, w)
  | TimeUnit.Minute =>
    if acc.minutes ≠ 0 then
      Except.error (FmtError.TimeUnitRepeated uStart uLast TimeUnit.Minute value)
    else Except.ok ({acc with minutes := value}, w)
  | TimeUnit.Hour =>
    if acc.hours ≠ 0 then
      Except.error (FmtError.TimeUnitRepeated uStart uLast TimeUnit.Hour value)
    else Except.ok ({acc with hours := value}, w)
  | TimeUnit.Month =>
    if acc.months ≠ 0 then
      Except.error (FmtError.TimeUnitRepeated uStart uLast TimeUnit.Month value)
    else Except.ok ({acc with months := value}, w)
  | TimeUnit.Year =>
    if acc.years ≠ 0 then
      Except.error (FmtError.TimeUnitRepeated uStart uLast TimeUnit.Year value)
    else Except.ok ({acc with years := value}, w)
  | TimeUnit.Week =>
    if w then
      Except.error (FmtError.TimeUnitRepeated uStart uLast TimeUnit.Week value)
    else Except.ok ({acc with days := (acc.days + value * 7 % U64) % U64}, true)
  | TimeUnit.Day =>
    if acc.days ≠ 0 ∧ w = false then
      Except.error (FmtError.TimeUnitRepeated uStart uLast TimeUnit.Day value)
    else Except.ok ({acc with days := (acc.days + value) % U64}, w)

/-- The unit-scanning half of one parser-loop iteration: scan the unit run
starting with `u0` at index `uStart`, resolve the alias, supply the value, and
consume at most one trailing space. Returns the updated accumulator and flag,
the next token's index, and the remaining input. -/
def stepUnit (uStart : Nat) (u0 : Char) (rest : List Char) (acc : Duration) (w : Bool)
    (value : Nat) : Except FmtError (Duration × Bool × Nat × List Char) :=
  let ext := rest.takeWhile isUnitChar
  let rest2 := rest.dropWhile isUnitChar
  if 32 ≤ ext.length then Except.error FmtError.InputIsTooLong
  else
    let unit := u0 :: ext
    let uLast := if ext.isEmpty then 0 else uStart + ext.length
    match TimeUnit.fromStr unit with
    | none => Except.error (FmtError.UnknownUnit uStart uLast unit value)
    | some tu =>
      match supply w acc tu value uStart uLast with
      | Except.error e => Except.error e
      | Except.ok (acc2, w2) =>
        let posNext := uStart + 1 + ext.length
        if rest2.head? = some ' ' then Except.ok (acc2, w2, posNext + 1, rest2.tail)
        else Except.ok (acc2, w2, posNext, rest2)

/-- One iteration of the `TryFrom<&str> for Duration` loop
(`src/formatter.rs` lines 36-147): scan a digit run starting with `c` at index
`pos`, parse its value, then hand over to the unit scan (skipping a single
space before the unit). -/
def step (pos : Nat) (c : Char) (cs : List Char) (acc : Duration) (w : Bool) :
    Except FmtError (Duration × Bool × Nat × List Char) :=
  if isDigitC c then
    let ds := cs.takeWhile isDigitC
    let rest1 := cs.dropWhile isDigitC
    if 32 ≤ ds.length then Except.error FmtError.InputIsTooLong
    else
      let v := digitsVal (c :: ds)
      if v < U64 then
        let posAfter := pos + 1 + ds.length
        match rest1 with
        | [] => Except.error FmtError.ValueWithoutUnit
        | u0 :: rest2 =>
          if u0 = ' ' then
            match rest2 with
            | [] => Except.error FmtError.ValueWithoutUnit
            | u1 :: rest3 => stepUnit (posAfter + 1) u1 rest3 acc w v
          else stepUnit posAfter u0 rest2 acc w v
      else Except.error FmtError.ValueParseError
  else Except.error (FmtError.NumberExpected c pos)

/-- The parser loop, by fuel; `parse` supplies `fuel = input length`, and every
iteration consumes at least one character, so the zero-fuel case with a
nonempty list is unreachable from `parse`. -/
def parseLoop : Nat → Nat → List Char → Duration → Bool → Except FmtError Duration
  | _, _, [], acc, _ => Except.ok acc
  | fuel + 1, pos, c :: cs, acc, w =>
    match step pos c cs acc w with
    | Except.error e => Except.error e
    | Except.ok (a, w2, p, rest) => parseLoop fuel p rest a w2
  | 0, _, _ :: _, acc, _ => Except.ok acc

/-- Rust `TryFrom<&str> for Duration` (`src/formatter.rs` lines 20-151). -/
def parse (l : List Char) : Except FmtError Duration :=
  if l.isEmpty then Except.error FmtError.EmptyInput
  else parseLoop l.length 0 l Duration.default false

/-- Claim C3: the canonical short-suffix round trip holds for `"2d3h15m"`, but
fails for canonical inputs containing the microsecond suffix `"μs"`: the alias
table entry for it is the double-encoded text U+00CE U+00BC `s`, so
`parse "9μs"` fails with `UnknownUnit` (contradicting the repository's own test
that parses `"200μs"`), leaving nothing to format. -/
theorem c3_parse_format :
    parse "2d3h15m".data = Except.ok ⟨0, 0, 0, 0, 15, 3, 2, 0, 0⟩ ∧
    Duration.format ⟨0, 0, 0, 0, 15, 3, 2, 0, 0⟩ FormatterOptions.default = "2d3h15m".data ∧
    parse "9μs".data = Except.error (FmtError.UnknownUnit 1 2 "μs".data 9) := by
  exact ⟨by decide, by decide, by decide⟩

/-- Claim C8: week folds into days at `×7` with the asymmetric duplicate rule:
`"1w3d"` and `"3d1w"` both parse to `days = 10`; `"3d3d"` fails with
unit-repeated for Day; `"1w1w"` fails with unit-repeated for Week; and once a
week token has been supplied (`was_week_repeated = true`), every later day
token is accepted and adds into the days field. -/
theorem c8_week_day :
    parse "1w3d".data = Except.ok ⟨0, 0, 0, 0, 0, 0, 10, 0, 0⟩ ∧
    parse "3d1w".data = Except.ok ⟨0, 0, 0, 0, 0, 0, 10, 0, 0⟩ ∧
    parse "3d3d".data = Except.error (FmtError.TimeUnitRepeated 3 0 TimeUnit.Day 3) ∧
    parse "1w1w".data = Except.error (FmtError.TimeUnitRepeated 3 0 TimeUnit.Week 1) ∧
    ∀ (acc : Duration) (v uStart uLast : Nat),
      supply true acc TimeUnit.Day v uStart uLast =
        Except.ok ({acc with days := (acc.days + v) % U64}, true) := by
  refine ⟨by decide, by decide, by decide, by decide, ?_⟩
  intro acc v uStart uLast
  simp [supply]

/-- Claim C4 (counterexample): the second unit `s` is supplied twice in
`"0s1s"`, yet parsing succeeds, because duplicate detection keys on the stored
field being nonzero and the first occurrence stored `0`. -/
theorem c4_counterexample :
    parse "0s1s".data = Except.ok ⟨0, 0, 0, 1, 0, 0, 0, 0, 0⟩ := by
  decide

lemma unitChar_not_digit {c : Char} (h : isUnitChar c = true) : isDigitC c = false := by
  simp [isUnitChar, isDigitC] at *
  omega

lemma unitChar_ne_space {c : Char} (h : isUnitChar c = true) : c ≠ ' ' := by
  intro he
  subst he
  exact absurd h (by decide)

lemma digit_not_unitChar {c : Char} (h : isDigitC c = true) : isUnitChar c = false := by
  simp [isUnitChar, isDigitC] at *
  omega

lemma digit_ne_space {c : Char} (h : isDigitC c = true) : c ≠ ' ' := by
  intro he
  subst he
  exact absurd h (by decide)

lemma takeWhile_all_append {p : Char → Bool} {l1 l2 : List Char}
    (h1 : ∀ c ∈ l1, p c = true) (h2 : ∀ c, l2.head? = some c → p c = false) :
    (l1 ++ l2).takeWhile p = l1 ∧ (l1 ++ l2).dropWhile p = l2 := by
  induction l1 with
  | nil =>
    simp only [List.nil_append]
    cases l2 with
    | nil => simp
    | cons c t =>
      have hc : p c = false := h2 c rfl
      simp [List.takeWhile_cons, List.dropWhile_cons, hc]
  | cons a t ih =>
    have ha : p a = true := h1 a (by simp)
    have iht := ih (fun c hc => h1 c (by simp [hc]))
    simp [List.takeWhile_cons, List.dropWhile_cons, ha, iht.1, iht.2]

lemma parseLoop_cons (fuel pos : Nat) (c : Char) (cs : List Char) (acc : Duration) (w : Bool) :
    parseLoop (fuel + 1) pos (c :: cs) acc w =
      match step pos c cs acc w with
      | Except.error e => Except.error e
      | Except.ok (a, w2, p, rest) => parseLoop fuel p rest a w2 := rfl

lemma stepUnit_eq (uStart : Nat) (u0 : Char) (α1 rest : List Char) (acc : Duration) (w : Bool)
    (v : Nat) (tu : TimeUnit)
    (hα1 : ∀ c ∈ α1, isUnitChar c = true) (hαL : α1.length ≤ 31)
    (hfs : TimeUnit.fromStr (u0 :: α1) = some tu)
    (hrest : rest = [] ∨ ∃ c cs, rest = c :: cs ∧ isDigitC c = true) :
    stepUnit uStart u0 (α1 ++ rest) acc w v =
      match supply w acc tu v uStart (if α1.isEmpty then 0 else uStart + α1.length) with
      | Except.error e => Except.error e
      | Except.ok (acc2, w2) => Except.ok (acc2, w2, uStart + 1 + α1.length, rest) := by
  have hsplit := @takeWhile_all_append isUnitChar α1 rest
    hα1 (by
      intro c hc
      rcases hrest with hnil | ⟨c2, cs2, hr, hc2⟩
      · subst hnil; simp at hc
      · subst hr
        simp at hc
        subst hc
        exact digit_not_unitChar hc2)
  have hspace : ¬ (rest.head? = some ' ') := by
    rcases hrest with hnil | ⟨c2, cs2, hr, hc2⟩
    · subst hnil; simp
    · subst hr
      simp
      exact digit_ne_space hc2
  unfold stepUnit
  simp only [hsplit.1, hsplit.2]
  rw [if_neg (by omega)]
  rw [hfs]
  simp only []
  cases hsup : supply w acc tu v uStart (if α1.isEmpty then 0 else uStart + α1.length) with
  | error e => rfl
  | ok p =>
    obtain ⟨acc2, w2⟩ := p
    simp only []
    rw [if_neg hspace]

lemma step_eq (pos : Nat) (a0 : Char) (a1 : List Char) (u0 : Char) (α1 rest : List Char)
    (acc : Duration) (w : Bool)
    (ha0 : isDigitC a0 = true) (ha1 : ∀ c ∈ a1, isDigitC c = true) (haL : a1.length ≤ 31)
    (haV : digitsVal (a0 :: a1) < U64) (hu0 : isUnitChar u0 = true) :
    step pos a0 (a1 ++ (u0 :: (α1 ++ rest))) acc w =
      stepUnit (pos + 1 + a1.length) u0 (α1 ++ rest) acc w (digitsVal (a0 :: a1)) := by
  have hsplit := @takeWhile_all_append isDigitC a1 (u0 :: (α1 ++ rest))
    ha1 (by
      intro c hc
      simp at hc
      subst hc
      exact unitChar_not_digit hu0)
  unfold step
  rw [if_pos ha0]
  simp only [hsplit.1, hsplit.2]
  rw [if_neg (by omega)]
  rw [if_pos haV]
  rw [if_neg (unitChar_ne_space hu0)]

lemma parseLoop_token (fuel pos : Nat) (acc : Duration) (w : Bool) (tu : TimeUnit)
    (a α rest : List Char)
    (ha : a ≠ []) (haD : ∀ c ∈ a, isDigitC c = true) (haL : a.length ≤ 32)
    (haV : digitsVal a < U64)
    (hα : α ≠ []) (hαU : ∀ c ∈ α, isUnitChar c = true) (hαL : α.length ≤ 32)
    (hfs : TimeUnit.fromStr α = some tu)
    (hrest : rest = [] ∨ ∃ c cs, rest = c :: cs ∧ isDigitC c = true) :
    parseLoop (fuel + 1) pos (a ++ α ++ rest) acc w =
      match supply w acc tu (digitsVal a) (pos + a.length)
          (if α.length = 1 then 0 else pos + a.length + α.length - 1) with
      | Except.error e => Except.error e
      | Except.ok (acc2, w2) =>
          parseLoop fuel (pos + a.length + α.length) rest acc2 w2 := by
  obtain ⟨a0, a1, rfl⟩ : ∃ x xs, a = x :: xs := by
    cases a with
    | nil => exact absurd rfl ha
    | cons x xs => exact ⟨x, xs, rfl⟩
  obtain ⟨u0, α1, rfl⟩ : ∃ x xs, α = x :: xs := by
    cases α with
    | nil => exact absurd rfl hα
    | cons x xs => exact ⟨x, xs, rfl⟩
  have ha0 : isDigitC a0 = true := haD a0 (by simp)
  have ha1 : ∀ c ∈ a1, isDigitC c = true := fun c hc => haD c (by simp [hc])
  have hu0 : isUnitChar u0 = true := hαU u0 (by simp)
  have hα1 : ∀ c ∈ α1, isUnitChar c = true := fun c hc => hαU c (by simp [hc])
  have hlist : (a0 :: a1) ++ (u0 :: α1) ++ rest = a0 :: (a1 ++ (u0 :: (α1 ++ rest))) := by
    simp
  rw [hlist, parseLoop_cons]
  rw [step_eq pos a0 a1 u0 α1 rest acc w ha0 ha1 (by simp at haL; omega) haV hu0]
  rw [stepUnit_eq (pos + 1 + a1.length) u0 α1 rest acc w (digitsVal (a0 :: a1)) tu
    hα1 (by simp at hαL; omega) hfs hrest]
  have hpos2 : pos + 1 + a1.length + 1 + α1.length
      = pos + (a0 :: a1).length + (u0 :: α1).length := by
    simp [List.length_cons]
    omega
  have hend : (if α1.isEmpty then 0 else pos + 1 + a1.length + α1.length)
      = (if (u0 :: α1).length = 1 then 0
         else pos + (a0 :: a1).length + (u0 :: α1).length - 1) := by
    by_cases hα1e : α1 = []
    · subst hα1e
      simp
    · rw [if_neg (by simp [hα1e]), if_neg (by simp [List.length_cons, hα1e])]
      simp [List.length_cons]
      omega
  have hstart : pos + 1 + a1.length = pos + (a0 :: a1).length := by
    simp [List.length_cons]
    omega
  rw [hpos2, hend, hstart]
  cases hsup : supply w acc tu (digitsVal (a0 :: a1)) (pos + (a0 :: a1).length)
      (if (u0 :: α1).length = 1 then 0
       else pos + (a0 :: a1).length + (u0 :: α1).length - 1) with
  | error e => rfl
  | ok p =>
    obtain ⟨acc2, w2⟩ := p
    rfl

/-- Claim C4 (amended): supplying one of the eight non-week, non-day units
twice fails with `TimeUnitRepeated` naming that unit, the offending (second)
value and the span the code computes for the second unit text — provided the
first supplied value is nonzero (duplicate detection keys on the stored field
being nonzero, so a zero-valued first occurrence is not remembered; see the
counterexample). Stated for inputs of the form `<digits><alias><digits><alias>`
over scannable aliases of the unit. -/
theorem c4_unit_repeated (u : TimeUnit)
    (hu : u = TimeUnit.Nanosecond ∨ u = TimeUnit.Microsecond ∨ u = TimeUnit.Millisecond ∨
          u = TimeUnit.Second ∨ u = TimeUnit.Minute ∨ u = TimeUnit.Hour ∨
          u = TimeUnit.Month ∨ u = TimeUnit.Year)
    (a b α β : List Char)
    (ha : a ≠ []) (haD : ∀ c ∈ a, isDigitC c = true) (haL : a.length ≤ 32)
    (haV : digitsVal a < U64) (haNZ : digitsVal a ≠ 0)
    (hb : b ≠ []) (hbD : ∀ c ∈ b, isDigitC c = true) (hbL : b.length ≤ 32)
    (hbV : digitsVal b < U64)
    (hα : α ≠ []) (hαU : ∀ c ∈ α, isUnitChar c = true) (hαL : α.length ≤ 32)
    (hαfs : TimeUnit.fromStr α = some u)
    (hβ : β ≠ []) (hβU : ∀ c ∈ β, isUnitChar c = true) (hβL : β.length ≤ 32)
    (hβfs : TimeUnit.fromStr β = some u) :
    parse (a ++ α ++ b ++ β) = Except.error (FmtError.TimeUnitRepeated
      (a.length + α.length + b.length)
      (if β.length = 1 then 0 else a.length + α.length + b.length + β.length - 1)
      u (digitsVal b)) := by
  have hb0 : ∃ c cs, b ++ β = c :: cs ∧ isDigitC c = true := by
    cases b with
    | nil => exact absurd rfl hb
    | cons c cs => exact ⟨c, cs ++ β, by simp, hbD c (by simp)⟩
  have hne : ¬ (a ++ α ++ b ++ β).isEmpty = true := by
    cases a with
    | nil => exact absurd rfl ha
    | cons x xs => simp
  have hL1 : 1 ≤ a.length := List.length_pos.mpr ha
  have hL2 : 1 ≤ α.length := List.length_pos.mpr hα
  have hL3 : 1 ≤ b.length := List.length_pos.mpr hb
  have hL4 : 1 ≤ β.length := List.length_pos.mpr hβ
  have hn : (a ++ α ++ b ++ β).length = ((a ++ α ++ b ++ β).length - 2) + 1 + 1 := by
    simp [List.length_append]
    omega
  unfold parse
  rw [if_neg hne, hn]
  set m := (a ++ α ++ b ++ β).length - 2 with hm
  rw [List.append_assoc (a ++ α) b β]
  rw [parseLoop_token (m + 1) 0 Duration.default false u a α
    (b ++ β) ha haD haL haV hα hαU hαL hαfs (Or.inr hb0)]
  rcases hu with rfl | rfl | rfl | rfl | rfl | rfl | rfl | rfl
  all_goals (
    simp only [supply, Duration.default, Nat.zero_add]
    rw [if_neg (by simp)]
    simp only []
    rw [← List.append_nil (b ++ β)]
    rw [parseLoop_token m (a.length + α.length) _ false _ b β []
      hb hbD hbL hbV hβ hβU hβL hβfs (Or.inl rfl)]
    simp only [supply]
    rw [if_pos (by simp [haNZ])])

/-- Claim C4 (witness): the amended theorem applied to `"1s2s"`. -/
theorem c4_unit_repeated_witness :
    parse "1s2s".data = Except.error (FmtError.TimeUnitRepeated 3 0 TimeUnit.Second 2) := by
  exact c4_unit_repeated TimeUnit.Second (by decide) "1".data "2".data "s".data "s".data
    (by decide) (by decide) (by decide) (by decide) (by decide)
    (by decide) (by decide) (by decide) (by decide)
    (by decide) (by decide) (by decide) (by decide)
    (by decide) (by decide) (by decide) (by decide)

end Zuck
